import Mathlib

set_option maxHeartbeats 1000000

/-!
Shallow embedding of `cmd/podman/system/connection/add.go` (podman
`system connection add` / `system context create`): destination
resolution, scheme-specific validation, the legacy `--docker`
destination translator, and the connection-registry upsert.

External capabilities (Go standard library / dependencies outside the
repository) are modelled explicitly:
- `os.Stat` plus the `errors.Is` / `os.ModeSocket` tests become a
  `String → StatResult` parameter;
- `net/url.Parse` is modelled by `urlParse` for the destination shapes
  this command documents (`scheme://[user@]host[:port][/path]`,
  without percent-escapes, queries, fragments or bracketed IPv6 hosts);
- `config.ReadCustomConfig` becomes an `Except String EngineCfg`
  parameter, and `cfg.Write()` is modelled by returning the final
  configuration in the `wrote` outcome;
- `ssh.Create` (the external connection-setup collaborator used for the
  ssh scheme) is modelled by the `sshDelegate` outcome carrying exactly
  the arguments the code passes to it.
-/

namespace PodmanConnection

/-- Result of the filesystem stat capability: `os.Stat` together with the
`errors.Is(err, os.ErrNotExist)`, `errors.Is(err, os.ErrPermission)` tests
and the `info.Mode()&os.ModeSocket` bit that `add` inspects. -/
inductive StatResult where
  | notExist
  | permission
  | otherError (msg : String)
  | ok (isSocket : Bool)
deriving DecidableEq

/-- SSH engine mode as produced by the external `ssh.DefineMode`; `add`
only compares it against `ssh.InvalidMode`. -/
inductive SshMode where
  | golang
  | native
  | invalid
deriving DecidableEq

/-- Parsed URL, modelling the `net/url.URL` fields this command reads:
`Scheme`, `User`, `Hostname()`, `Port()` and `Path`.  Go stores
`Host = "host:port"`; the model keeps host and port split, with
`port = ""` meaning no port, exactly the `Port()` view. -/
structure Url where
  scheme : String
  user : Option String
  host : String
  port : String
  path : String
deriving DecidableEq

/-- Character class `[A-Za-z0-9+.-]` of the scheme regular expression in
`add`/`create`, which coincides with the characters `net/url`'s
`getScheme` accepts after the first letter. -/
def isSchemeChar (c : Char) : Bool :=
  c.isAlpha || c.isDigit || c = '+' || c = '.' || c = '-'

/-- Scanner for the tail of the pattern `^[A-Za-z][A-Za-z0-9+.-]*://`:
consume scheme characters until the literal `://` is found.  Because
`:` is not a scheme character, this is exactly the backtracking
semantics of the regular expression. -/
def schemePatternAux : List Char → Bool
  | [] => false
  | c :: rest =>
    if c = ':' then
      match rest with
      | '/' :: '/' :: _ => true
      | _ => false
    else isSchemeChar c && schemePatternAux rest

/-- Model of `regexp.MatchString("^[A-Za-z][A-Za-z0-9+.-]*://", dest)`:
true iff `dest` starts with a letter, followed by scheme characters,
followed by the literal `://`. -/
def matchScheme (dest : String) : Bool :=
  match dest.data with
  | [] => false
  | c :: rest => c.isAlpha && schemePatternAux rest

/-- Scheme defaulting step shared by `add` (lines 109-113) and `create`
(lines 206-210): if the destination does not match the scheme pattern,
prepend `ssh://`. -/
def preprocessDest (dest : String) : String :=
  if matchScheme dest then dest else "ssh://" ++ dest

/-- Model of `net/url`'s `getScheme` loop: consume letters (and, after
the first position, digits and `+`/`-`/`.`) until a `:`; a `:` in first
position is a parse error, any other non-scheme character or the end of
the string means the URL carries no scheme.  `acc` holds the consumed
characters in reverse. -/
def getSchemeAux (acc : List Char) : List Char → Except String (Option (List Char × List Char))
  | [] => .ok none
  | c :: rest =>
    if c.isAlpha then getSchemeAux (c :: acc) rest
    else if c.isDigit || c = '+' || c = '-' || c = '.' then
      if acc.isEmpty then .ok none else getSchemeAux (c :: acc) rest
    else if c = ':' then
      if acc.isEmpty then .error "missing protocol scheme"
      else .ok (some (acc.reverse, rest))
    else .ok none

/-- Split a character list at the LAST occurrence of `sep` (the
`strings.LastIndex` idiom `net/url` uses for userinfo and ports);
`none` when `sep` does not occur. -/
def splitAtLastChar (sep : Char) : List Char → Option (List Char × List Char)
  | [] => none
  | c :: rest =>
    match splitAtLastChar sep rest with
    | some (x, y) => some (c :: x, y)
    | none => if c = sep then some ([], rest) else none

/-- Parse an authority `[userinfo@]host[:port]` the way `net/url` does
for the destination shapes of this command: userinfo is everything
before the last `@`; a trailing `:digits` is the port, and a `:` suffix
that is not all digits is the `invalid port` parse error. -/
def parseAuthority (a : List Char) : Except String (Option String × String × String) :=
  let pair :=
    match splitAtLastChar '@' a with
    | some (u, h) => (some (String.mk u), h)
    | none => (none, a)
  match splitAtLastChar ':' pair.2 with
  | some (h, p) =>
    if p.all (fun c => c.isDigit) then .ok (pair.1, String.mk h, String.mk p)
    else .error "invalid port"
  | none => .ok (pair.1, String.mk pair.2, "")

/-- Model of `url.Parse` for the destination forms accepted by this
command.  The scheme is lowercased as in `net/url`; after `scheme://`
the authority extends to the first `/`, and the remainder is the path.
Strings without a scheme or without `//` are kept whole as the path
(the opaque case never reached by `add`/`create`, which always pass a
string matching the scheme pattern). -/
def urlParse (s : String) : Except String Url :=
  match getSchemeAux [] s.data with
  | .error e => .error e
  | .ok none => .ok { scheme := "", user := none, host := "", port := "", path := s }
  | .ok (some (sch, rest)) =>
    let scheme := String.mk (sch.map Char.toLower)
    match rest with
    | '/' :: '/' :: rest2 =>
      let authority := rest2.takeWhile (fun c => c ≠ '/')
      let pathChars := rest2.dropWhile (fun c => c ≠ '/')
      match parseAuthority authority with
      | .error e => .error e
      | .ok (user, host, port) =>
        .ok { scheme := scheme, user := user, host := host, port := port,
              path := String.mk pathChars }
    | _ => .ok { scheme := scheme, user := none, host := "", port := "", path := String.mk rest }

/-- Canonical string form of a URL, modelling `url.URL.String()` on the
shapes this command produces: `scheme:` then, when there is an
authority or a path, `//[user@]host[:port]path`. -/
def Url.toUriString (u : Url) : String :=
  let hostPort := u.host ++ (if u.port = "" then "" else ":" ++ u.port)
  let userPart := match u.user with | some usr => usr ++ "@" | none => ""
  u.scheme ++ ":" ++
    (if hostPort = "" && u.path = "" && u.user = none then "" else "//") ++
    userPart ++ hostPort ++ u.path

/-- Persisted record `config.Destination`: fields `URI` and `Identity`
(Go zero value `""` when the identity flag was not supplied). -/
structure Destination where
  uri : String
  identity : String
deriving DecidableEq

/-- The parts of `config.Config` this command touches:
`Engine.ActiveService` and `Engine.ServiceDestinations`.  The map is an
association list wrapped in `Option` to keep Go's distinction between a
nil map and a non-nil one. -/
structure EngineCfg where
  activeService : String
  serviceDestinations : Option (List (String × Destination))
deriving DecidableEq

/-- Go map assignment `m[k] = v` on the association-list model:
overwrite the entry for `k` when present, append otherwise. -/
def mapSet (m : List (String × Destination)) (k : String) (v : Destination) :
    List (String × Destination) :=
  if m.any (fun p => p.1 = k) then
    m.map (fun p => if p.1 = k then (k, v) else p)
  else m ++ [(k, v)]

/-- Registry insertion block shared verbatim by `add` (lines 190-197)
and `create` (lines 227-234): a nil map is created with the single new
entry and the new name becomes the active service; a non-nil map gets
the entry set with no change to the active service. -/
def serviceUpsert (cfg : EngineCfg) (name : String) (dst : Destination) : EngineCfg :=
  match cfg.serviceDestinations with
  | none =>
    { cfg with serviceDestinations := some [(name, dst)], activeService := name }
  | some m => { cfg with serviceDestinations := some (mapSet m name dst) }

/-- Registry mutation performed by `add` (lines 176-197): first the
explicit `--default` request (`Changed("default") && cOpts.Default`)
moves the active service, then the record is inserted. -/
def addUpsert (cfg : EngineCfg) (name : String) (dst : Destination)
    (defaultChanged defaultVal : Bool) : EngineCfg :=
  serviceUpsert
    (if defaultChanged && defaultVal then { cfg with activeService := name } else cfg)
    name dst

/-- Command-line flags of `podman system connection add` together with
cobra's `Changed` bits, as read through `cOpts` and `cmd.Flags()`. -/
structure Flags where
  port : Int
  portChanged : Bool
  identity : String
  identityChanged : Bool
  socketPath : String
  socketPathChanged : Bool
  defaultFlag : Bool
  defaultChanged : Bool
deriving DecidableEq

/-- The `ssh.ConnectionCreateOptions` value built at the top of `add`
and handed to the external `ssh.Create` for the ssh scheme. -/
structure ConnectionCreateOptions where
  port : Int
  path : String
  identity : String
  name : String
  socket : String
  isDefault : Bool
deriving DecidableEq

/-- Socket-path override (lines 120-122 and again 142-144): when the
`--socket-path` flag was explicitly supplied, its value overwrites the
parsed path. -/
def overridePath (flags : Flags) (u : Url) : Url :=
  if flags.socketPathChanged then { u with path := flags.socketPath } else u

/-- Errors `add` can return, one constructor per `return` site. -/
inductive AddError where
  | parseError (msg : String)
  | invalidSshMode
  | identityNotSupportedUnix
  | socketPathNotSupportedTcp
  | identityNotSupportedTcp
  | tcpRequiresPort
  | statError (msg : String)
  | notASocket (path : String)
  | loadError (msg : String)
deriving DecidableEq

/-- Outcome of `add`: an error, a delegation to the external
`ssh.Create` collaborator, or a registry configuration handed to
`cfg.Write()`. -/
inductive AddResult where
  | error (e : AddError)
  | sshDelegate (opts : ConnectionCreateOptions) (mode : SshMode)
  | wrote (cfg : EngineCfg)
deriving DecidableEq

/-- Intermediate outcome of the resolution and validation phase of
`add` (everything before `config.ReadCustomConfig`). -/
inductive PreResult where
  | err (e : AddError)
  | sshCreate (opts : ConnectionCreateOptions) (mode : SshMode)
  | proceed (uri : Url)
deriving DecidableEq

/-- The record built at lines 182-188 of `add`: URI string of the final
URL, identity only when the flag was explicitly supplied. -/
def dstOf (flags : Flags) (uri : Url) : Destination :=
  { uri := uri.toUriString,
    identity := if flags.identityChanged then flags.identity else "" }

/-- Tail of `add` (lines 171-198): load the custom configuration,
apply the default-flag rule and the insertion, hand the result to
`cfg.Write()`. -/
def finishAdd (name : String) (flags : Flags) (uri : Url)
    (load : Except String EngineCfg) : AddResult :=
  match load with
  | .error e => .error (.loadError e)
  | .ok cfg =>
    .wrote (addUpsert cfg name (dstOf flags uri) flags.defaultChanged flags.defaultFlag)

/-- Resolution and validation phase of `add` (lines 97-169): build the
ssh options, default the scheme, parse the URL, apply the socket-path
override, check the ssh mode, then dispatch on the scheme exactly as
the `switch uri.Scheme` does. -/
def addPre (name dest0 : String) (flags : Flags) (mode : SshMode)
    (stat : String → StatResult) : PreResult :=
  let entities : ConnectionCreateOptions :=
    { port := flags.port, path := dest0, identity := flags.identity,
      name := name, socket := flags.socketPath, isDefault := flags.defaultFlag }
  match urlParse (preprocessDest dest0) with
  | .error e => .err (.parseError e)
  | .ok uri0 =>
    let uri := overridePath flags uri0
    if mode = SshMode.invalid then .err .invalidSshMode
    else if uri.scheme = "ssh" then .sshCreate entities mode
    else if uri.scheme = "unix" then
      if flags.identityChanged then .err .identityNotSupportedUnix
      else
        let uri2 := overridePath flags uri
        match stat uri2.path with
        | .notExist => .proceed uri2
        | .permission => .proceed uri2
        | .otherError m => .err (.statError m)
        | .ok isSock => if isSock then .proceed uri2 else .err (.notASocket uri2.path)
    else if uri.scheme = "tcp" then
      if flags.socketPathChanged then .err .socketPathNotSupportedTcp
      else if flags.identityChanged then .err .identityNotSupportedTcp
      else if uri.port = "" then .err .tcpRequiresPort
      else .proceed uri
    else .proceed uri

/-- The `add` command body: resolution and validation, then the
registry phase. -/
def add (name dest0 : String) (flags : Flags) (mode : SshMode)
    (stat : String → StatResult) (load : Except String EngineCfg) : AddResult :=
  match addPre name dest0 flags mode stat with
  | .err e => .error e
  | .sshCreate opts m => .sshDelegate opts m
  | .proceed uri => finishAdd name flags uri load

/-- Errors of `translateDest`, one constructor per `return` site:
a key other than `host`, or extra comma-separated options (the
constructor carries the rejected segments joined by commas, the `%q`
argument of the Go error). -/
inductive TranslateError where
  | invalidOption
  | unsupportedOptions (rejected : String)
deriving DecidableEq

/-- Model of `strings.SplitN(s, sep, 2)` for a one-character separator:
`acc` holds the consumed characters in reverse; the result is the part
before the first `sep` and, when `sep` occurs, the part after it. -/
def splitNAux2 (sep : Char) (acc : List Char) : List Char → List Char × Option (List Char)
  | [] => (acc.reverse, none)
  | c :: rest =>
    if c = sep then (acc.reverse, some rest) else splitNAux2 sep (c :: acc) rest

/-- Lifting of `splitNAux2` to strings, the shape `strings.SplitN`
returns: a one- or two-element list. -/
def goSplitN2 (sep : Char) (s : String) : List String :=
  match splitNAux2 sep [] s.data with
  | (x, none) => [String.mk x]
  | (x, some rest) => [String.mk x, String.mk rest]

/-- Model of `strings.Split` for a one-character separator: split at
every occurrence; always returns a non-empty list. -/
def splitAllAux (sep : Char) (acc : List Char) : List Char → List (List Char)
  | [] => [acc.reverse]
  | c :: rest =>
    if c = sep then acc.reverse :: splitAllAux sep [] rest
    else splitAllAux sep (c :: acc) rest

/-- Lifting of `splitAllAux` to strings. -/
def goSplit (sep : Char) (s : String) : List String :=
  (splitAllAux sep [] s.data).map String.mk

/-- Model of `strings.Join` for a one-character separator, on character
lists. -/
def joinSep (sep : Char) : List (List Char) → List Char
  | [] => []
  | [x] => x
  | x :: xs => x ++ sep :: joinSep sep xs

/-- Lifting of `joinSep` to strings. -/
def goJoin (sep : Char) (xs : List String) : String :=
  String.mk (joinSep sep (xs.map String.data))

/-- The `translateDest` function (lines 237-255): empty input passes
through, input without `=` is returned verbatim, the key before the
first `=` must be `host`, and the value may not contain further
comma-separated options. -/
def translateDest (path : String) : Except TranslateError String :=
  if path = "" then .ok ""
  else
    match goSplitN2 '=' path with
    | [x] => .ok x
    | x :: y :: _ =>
      if x ≠ "host" then .error .invalidOption
      else
        match goSplit ',' y with
        | [] => .ok ""
        | [v] => .ok v
        | _ :: e :: es => .error (.unsupportedOptions (goJoin ',' (e :: es)))
    | [] => .ok path

/-- Errors `create` can return, one constructor per `return` site. -/
inductive CreateError where
  | translateFailed (e : TranslateError)
  | parseError (msg : String)
  | loadError (msg : String)
deriving DecidableEq

/-- Outcome of `create`: an error, or a registry configuration handed
to `cfg.Write()`. -/
inductive CreateResult where
  | error (e : CreateError)
  | wrote (cfg : EngineCfg)
deriving DecidableEq

/-- The `create` command body (lines 201-235): translate the legacy
`--docker` destination, default the scheme, parse, load the custom
configuration, insert a record carrying only the URI, and write.  The
filesystem-stat capability is passed as in `add`; the source of
`create` never invokes it, so the definition ignores it. -/
def create (name : String) (dockerPath : String) (stat : String → StatResult)
    (load : Except String EngineCfg) : CreateResult :=
  match translateDest dockerPath with
  | .error e => .error (.translateFailed e)
  | .ok d =>
    match urlParse (preprocessDest d) with
    | .error e => .error (.parseError e)
    | .ok uri =>
      match load with
      | .error e => .error (.loadError e)
      | .ok cfg => .wrote (serviceUpsert cfg name { uri := uri.toUriString, identity := "" })

/-- Classifies the errors of `add` raised before `config.ReadCustomConfig`
runs: every error except a configuration-load failure. -/
def AddError.isPreLoad : AddError → Bool
  | .loadError _ => false
  | _ => true

/-- Flag bundle with every flag at its cobra default and nothing
explicitly changed. -/
def flags0 : Flags :=
  { port := 22, portChanged := false, identity := "", identityChanged := false,
    socketPath := "", socketPathChanged := false, defaultFlag := false,
    defaultChanged := false }

/-- Stat capability reporting every path as missing. -/
def statNone : String → StatResult := fun _ => StatResult.notExist

/-- Stat capability reporting every path as an existing non-socket file. -/
def statNotSock : String → StatResult := fun _ => StatResult.ok false

/-- Stat capability failing with an unexpected error on every path. -/
def statOther : String → StatResult := fun _ => StatResult.otherError "boom"

/-- Flags with the identity override explicitly supplied. -/
def flagsIdent : Flags := { flags0 with identity := "/id", identityChanged := true }

/-- Flags with the socket-path override explicitly supplied. -/
def flagsSock : Flags := { flags0 with socketPath := "/sp", socketPathChanged := true }

/-- Flags with both the identity and the socket-path override
explicitly supplied. -/
def flagsBoth : Flags :=
  { flags0 with
    identity := "/id", identityChanged := true,
    socketPath := "/sp", socketPathChanged := true }

/-- Flags with the port flag explicitly supplied as 8080. -/
def flagsPort : Flags := { flags0 with port := 8080, portChanged := true }

/-- Connection options `add` builds for destination `ssh://h` under
`flags0`. -/
def sshOpts0 : ConnectionCreateOptions :=
  { port := 22, path := "ssh://h", identity := "", name := "n", socket := "",
    isDefault := false }

/-- Connection options `add` builds for destination `ssh://h` under
`flagsBoth`. -/
def sshOptsBoth : ConnectionCreateOptions :=
  { port := 22, path := "ssh://h", identity := "/id", name := "n", socket := "/sp",
    isDefault := false }

/-- Registry configuration holding only connection `n` at
`tcp://h:8080`, with `n` active. -/
def cfgN : EngineCfg :=
  { activeService := "n",
    serviceDestinations := some [("n", { uri := "tcp://h:8080", identity := "" })] }

/-- Parse result of `tcp://h:8080`. -/
def uriTcp8080 : Url :=
  { scheme := "tcp", user := none, host := "h", port := "8080", path := "" }

/-- Parse result of `unix:///run/p`. -/
def uriUnix : Url :=
  { scheme := "unix", user := none, host := "", port := "", path := "/run/p" }

/-- Registry configuration with a nil destination map. -/
def cfgEmpty : EngineCfg := { activeService := "", serviceDestinations := none }

/-- Registry configuration with one prior connection, which is active. -/
def cfgEx : EngineCfg :=
  { activeService := "old",
    serviceDestinations := some [("old", { uri := "tcp://o:1", identity := "" })] }

/-- A sample destination record. -/
def dstEx : Destination := { uri := "tcp://h:1", identity := "" }

section Lemmas

/-- Overriding the path never changes the scheme. -/
@[simp] theorem overridePath_scheme (flags : Flags) (u : Url) :
    (overridePath flags u).scheme = u.scheme := by
  rw [overridePath]; split <;> rfl

/-- Overriding the path never changes the port. -/
@[simp] theorem overridePath_port (flags : Flags) (u : Url) :
    (overridePath flags u).port = u.port := by
  rw [overridePath]; split <;> rfl

/-- Applying the socket-path override twice equals applying it once. -/
@[simp] theorem overridePath_idem (flags : Flags) (u : Url) :
    overridePath flags (overridePath flags u) = overridePath flags u := by
  by_cases h : flags.socketPathChanged <;> simp [overridePath, h]

/-- Rebuilding a string from its character data is the identity. -/
@[simp] theorem mk_data (s : String) : String.mk s.data = s := rfl

/-- The character data of a rebuilt string is the original list. -/
@[simp] theorem data_mk (l : List Char) : (String.mk l).data = l := rfl

theorem splitNAux2_no_sep (sep : Char) (l : List Char) (acc : List Char)
    (h : ∀ c ∈ l, c ≠ sep) : splitNAux2 sep acc l = (acc.reverse ++ l, none) := by
  induction l generalizing acc with
  | nil => simp [splitNAux2]
  | cons c rest ih =>
    have hc : c ≠ sep := h c (by simp)
    rw [splitNAux2]
    simp only [hc, if_false, ite_false]
    rw [ih (c :: acc) (fun x hx => h x (by simp [hx]))]
    simp

theorem splitNAux2_sep_append (sep : Char) (l1 l2 : List Char) (acc : List Char)
    (h : ∀ c ∈ l1, c ≠ sep) :
    splitNAux2 sep acc (l1 ++ sep :: l2) = (acc.reverse ++ l1, some l2) := by
  induction l1 generalizing acc with
  | nil => simp [splitNAux2]
  | cons c rest ih =>
    have hc : c ≠ sep := h c (by simp)
    rw [List.cons_append, splitNAux2]
    simp only [hc, if_false, ite_false]
    rw [ih (c :: acc) (fun x hx => h x (by simp [hx]))]
    simp

theorem splitAllAux_ne_nil (sep : Char) (acc l : List Char) :
    splitAllAux sep acc l ≠ [] := by
  induction l generalizing acc with
  | nil => simp [splitAllAux]
  | cons c rest ih =>
    rw [splitAllAux]
    split
    · simp
    · exact ih (c :: acc)

theorem splitAllAux_no_sep (sep : Char) (l : List Char) (acc : List Char)
    (h : ∀ c ∈ l, c ≠ sep) : splitAllAux sep acc l = [acc.reverse ++ l] := by
  induction l generalizing acc with
  | nil => simp [splitAllAux]
  | cons c rest ih =>
    have hc : c ≠ sep := h c (by simp)
    rw [splitAllAux]
    simp only [hc, if_false, ite_false]
    rw [ih (c :: acc) (fun x hx => h x (by simp [hx]))]
    simp

theorem splitAllAux_sep_append (sep : Char) (l1 l2 : List Char) (acc : List Char)
    (h : ∀ c ∈ l1, c ≠ sep) :
    splitAllAux sep acc (l1 ++ sep :: l2) = (acc.reverse ++ l1) :: splitAllAux sep [] l2 := by
  induction l1 generalizing acc with
  | nil => simp [splitAllAux]
  | cons c rest ih =>
    have hc : c ≠ sep := h c (by simp)
    rw [List.cons_append, splitAllAux]
    simp only [hc, if_false, ite_false]
    rw [ih (c :: acc) (fun x hx => h x (by simp [hx]))]
    simp

theorem joinSep_cons2 (sep : Char) (x y : List Char) (ys : List (List Char)) :
    joinSep sep (x :: y :: ys) = x ++ sep :: joinSep sep (y :: ys) := rfl

theorem joinSep_splitAllAux (sep : Char) (l : List Char) (acc : List Char) :
    joinSep sep (splitAllAux sep acc l) = acc.reverse ++ l := by
  induction l generalizing acc with
  | nil => simp [splitAllAux, joinSep]
  | cons c rest ih =>
    rw [splitAllAux]
    by_cases hc : c = sep
    · subst hc
      simp only [if_true, ite_true]
      obtain ⟨y, ys, hys⟩ : ∃ y ys, splitAllAux c [] rest = y :: ys := by
        cases hsp : splitAllAux c [] rest with
        | nil => exact absurd hsp (splitAllAux_ne_nil c [] rest)
        | cons y ys => exact ⟨y, ys, rfl⟩
      rw [hys, joinSep_cons2, ← hys]
      have hrest := ih ([] : List Char)
      simp only [List.reverse_nil, List.nil_append] at hrest
      rw [hrest]
    · simp only [hc, if_false, ite_false]
      rw [ih (c :: acc)]
      simp

/-- The string `ssh://` followed by anything matches the scheme
pattern. -/
theorem matchScheme_ssh_append (s : String) : matchScheme ("ssh://" ++ s) = true := by
  have h : ("ssh://" ++ s).data = 's' :: 's' :: 'h' :: ':' :: '/' :: '/' :: s.data := by
    rw [String.data_append]
    have h6 : "ssh://".data = ['s', 's', 'h', ':', '/', '/'] := rfl
    rw [h6]
    rfl
  rw [matchScheme, h]
  rfl

/-- Errors of the registry phase are always load errors. -/
theorem finishAdd_error (name : String) (flags : Flags) (uri : Url)
    (load : Except String EngineCfg) (e : AddError)
    (h : finishAdd name flags uri load = .error e) : e.isPreLoad = false := by
  cases load with
  | error m =>
    rw [finishAdd] at h
    cases h
    rfl
  | ok cfg =>
    rw [finishAdd] at h
    cases h

/-- When the resolution phase of `add` proceeds to the registry phase,
the URL it hands over is the parsed URL with the socket-path override
applied, and the scheme is not `ssh`. -/
theorem addPre_proceed (name dest : String) (flags : Flags) (mode : SshMode)
    (stat : String → StatResult) (uri u : Url)
    (hp : urlParse (preprocessDest dest) = .ok uri)
    (h : addPre name dest flags mode stat = .proceed u) :
    u = overridePath flags uri ∧ uri.scheme ≠ "ssh" := by
  simp only [addPre, hp, overridePath_idem, overridePath_scheme, overridePath_port] at h
  by_cases hm : mode = SshMode.invalid
  · simp [hm] at h
  · by_cases hssh : uri.scheme = "ssh"
    · simp [hm, hssh] at h
    · refine ⟨?_, hssh⟩
      by_cases hunix : uri.scheme = "unix"
      · by_cases hid : flags.identityChanged
        · simp [hm, hssh, hunix, hid] at h
        · cases hst : stat (overridePath flags uri).path with
          | notExist => simp [hm, hssh, hunix, hid, hst] at h; exact h.symm
          | permission => simp [hm, hssh, hunix, hid, hst] at h; exact h.symm
          | otherError m => simp [hm, hssh, hunix, hid, hst] at h
          | ok isSock =>
            cases isSock with
            | true => simp [hm, hssh, hunix, hid, hst] at h; exact h.symm
            | false => simp [hm, hssh, hunix, hid, hst] at h
      · by_cases htcp : uri.scheme = "tcp"
        · by_cases hsp : flags.socketPathChanged
          · simp [hm, hssh, hunix, htcp, hsp] at h
          · by_cases hid : flags.identityChanged
            · simp [hm, hssh, hunix, htcp, hsp, hid] at h
            · by_cases hport : uri.port = ""
              · simp [hm, hssh, hunix, htcp, hsp, hid, hport] at h
              · simp [hm, hssh, hunix, htcp, hsp, hid, hport] at h
                exact h.symm
        · simp [hm, hssh, hunix, htcp] at h
          exact h.symm

end Lemmas

section Claims

/-- C1: for every upsert through `add`, a nil destination map makes the
inserted name the active service regardless of the default flag, and a
non-nil map moves the active service to the inserted name exactly when
the `--default` flag was explicitly changed to true, leaving it
untouched otherwise. -/
theorem upsert_active_rule (cfg : EngineCfg) (name : String) (dst : Destination)
    (defaultChanged defaultVal : Bool) :
    (cfg.serviceDestinations = none →
      (addUpsert cfg name dst defaultChanged defaultVal).activeService = name)
    ∧ (∀ m, cfg.serviceDestinations = some m →
      (addUpsert cfg name dst defaultChanged defaultVal).activeService =
        if defaultChanged && defaultVal then name else cfg.activeService) := by
  constructor
  · intro hnil
    rw [addUpsert, serviceUpsert]
    by_cases hd : defaultChanged && defaultVal
    · simp [hd, hnil]
    · simp [hd, hnil]
  · intro m hm
    rw [addUpsert, serviceUpsert]
    by_cases hd : defaultChanged && defaultVal
    · simp [hd, hm]
    · simp [hd, hm]

/-- Witness for C1 at concrete registries: inserting into a nil map
activates the new name even without the default flag, inserting into a
non-nil map without the flag keeps the previous active service. -/
theorem upsert_active_rule_witness :
    (addUpsert cfgEmpty "n" dstEx false false).activeService = "n"
    ∧ (addUpsert cfgEx "n" dstEx false false).activeService = "old" := by
  constructor
  · exact (upsert_active_rule cfgEmpty "n" dstEx false false).1 rfl
  · have h := (upsert_active_rule cfgEx "n" dstEx false false).2
      [("old", { uri := "tcp://o:1", identity := "" })] rfl
    simpa using h

/-- C2: a destination that does not match the scheme pattern gets
`ssh://` prepended exactly once (the result matches the pattern, so the
defaulting step is idempotent), and a destination already carrying a
scheme prefix is passed to the parser unchanged. -/
theorem scheme_defaulting (dest : String) :
    (matchScheme dest = true → preprocessDest dest = dest)
    ∧ (matchScheme dest = false →
        preprocessDest dest = "ssh://" ++ dest
        ∧ matchScheme (preprocessDest dest) = true
        ∧ preprocessDest (preprocessDest dest) = preprocessDest dest) := by
  constructor
  · intro h
    rw [preprocessDest, h]
    rfl
  · intro h
    have h1 : preprocessDest dest = "ssh://" ++ dest := by
      rw [preprocessDest, h]
      rfl
    have h2 : matchScheme (preprocessDest dest) = true := by
      rw [h1]; exact matchScheme_ssh_append dest
    refine ⟨h1, h2, ?_⟩
    rw [preprocessDest, if_pos h2]

/-- Witness for C2: a bare host gets `ssh://` prepended once and
becomes stable, a `tcp://` destination is left untouched. -/
theorem scheme_defaulting_witness :
    preprocessDest "server.fubar.com" = "ssh://server.fubar.com"
    ∧ preprocessDest (preprocessDest "server.fubar.com") = preprocessDest "server.fubar.com"
    ∧ preprocessDest "tcp://h:8080" = "tcp://h:8080" := by
  have h1 := (scheme_defaulting "server.fubar.com").2 (by decide)
  have h2 := (scheme_defaulting "tcp://h:8080").1 (by decide)
  exact ⟨h1.1, h1.2.2, h2⟩

/-- C3: evaluation of `add` at the failing input `tcp://h` with
`--port 8080` explicitly supplied: the command still fails with the
missing-port error, because the check reads only the parsed URL port
and the port flag is never applied to a tcp destination — contradicting
the claim (and the error message's own text) that a `--port` override
satisfies the port requirement.  With the port inside the URL the same
command succeeds. -/
theorem tcp_port_override_ignored :
    add "n" "tcp://h" flagsPort SshMode.golang statNone (.ok cfgEmpty)
      = .error .tcpRequiresPort
    ∧ add "n" "tcp://h:8080" flagsPort SshMode.golang statNone (.ok cfgEmpty)
      = .wrote cfgN :=
  ⟨rfl, rfl⟩

/-- C4 counterexample: a destination of scheme ssh that passes
resolution (ssh has no scheme-specific validation) does NOT end in a
registry upsert and write — `add` returns the delegation to the
external `ssh.Create` collaborator and the registry phase is never
reached. -/
theorem ssh_add_skips_registry :
    add "n" "ssh://h" flags0 SshMode.golang statNone (.ok cfgEmpty)
      = .sshDelegate sshOpts0 SshMode.golang := rfl

/-- C4 (amended): whenever `add` hands a configuration to the
persistence collaborator, the destination's scheme is not `ssh` (ssh is
delegated to the external connection-setup collaborator instead), and
the written configuration is exactly the registry upsert of the loaded
configuration with the resolved record. -/
theorem add_write_is_upsert (name dest : String) (flags : Flags) (mode : SshMode)
    (stat : String → StatResult) (cfg : EngineCfg) (uri : Url) (c : EngineCfg)
    (hp : urlParse (preprocessDest dest) = .ok uri)
    (h : add name dest flags mode stat (.ok cfg) = .wrote c) :
    uri.scheme ≠ "ssh"
    ∧ c = addUpsert cfg name (dstOf flags (overridePath flags uri))
        flags.defaultChanged flags.defaultFlag := by
  cases hpre : addPre name dest flags mode stat with
  | err e =>
    simp [add, hpre] at h
  | sshCreate o m =>
    simp [add, hpre] at h
  | proceed u =>
    simp only [add, hpre, finishAdd] at h
    injection h with h2
    obtain ⟨hu, hssh⟩ := addPre_proceed name dest flags mode stat uri u hp hpre
    exact ⟨hssh, by rw [← h2, hu]⟩

/-- Witness for the amended C4: a successful tcp add writes exactly
the upsert of the loaded (empty) registry. -/
theorem add_write_is_upsert_witness :
    uriTcp8080.scheme ≠ "ssh"
    ∧ addUpsert cfgEmpty "n" { uri := "tcp://h:8080", identity := "" } false false
      = addUpsert cfgEmpty "n" (dstOf flags0 (overridePath flags0 uriTcp8080))
          flags0.defaultChanged flags0.defaultFlag :=
  add_write_is_upsert "n" "tcp://h:8080" flags0 SshMode.golang statNone cfgEmpty uriTcp8080
    (addUpsert cfgEmpty "n" { uri := "tcp://h:8080", identity := "" } false false) rfl rfl

/-- C5: the identity override is rejected for the unix scheme, the
socket-path and identity overrides are rejected for the tcp scheme,
and the ssh scheme accepts both overrides without any error (the
command delegates to the external ssh collaborator for any flags). -/
theorem scheme_override_rejection (name dest : String) (flags : Flags) (mode : SshMode)
    (stat : String → StatResult) (load : Except String EngineCfg) (uri : Url)
    (hp : urlParse (preprocessDest dest) = .ok uri) (hm : mode ≠ SshMode.invalid) :
    (uri.scheme = "unix" → flags.identityChanged = true →
      add name dest flags mode stat load = .error .identityNotSupportedUnix)
    ∧ (uri.scheme = "tcp" → flags.socketPathChanged = true →
      add name dest flags mode stat load = .error .socketPathNotSupportedTcp)
    ∧ (uri.scheme = "tcp" → flags.identityChanged = true → flags.socketPathChanged = false →
      add name dest flags mode stat load = .error .identityNotSupportedTcp)
    ∧ (uri.scheme = "ssh" →
      add name dest flags mode stat load
        = .sshDelegate
            { port := flags.port, path := dest, identity := flags.identity,
              name := name, socket := flags.socketPath, isDefault := flags.defaultFlag }
            mode) := by
  refine ⟨fun hs hid => ?_, fun hs hsp => ?_, fun hs hid hsp => ?_, fun hs => ?_⟩ <;>
    simp [add, addPre, hp, hm, hs, *]

/-- Witness for C5 at concrete destinations: identity on unix fails,
identity and socket-path on tcp fail, both overrides on ssh are
accepted and carried to the ssh collaborator. -/
theorem scheme_override_rejection_witness :
    add "n" "unix:///run/p" flagsIdent SshMode.golang statNone (.ok cfgEmpty)
      = .error .identityNotSupportedUnix
    ∧ add "n" "tcp://h:8080" flagsSock SshMode.golang statNone (.ok cfgEmpty)
      = .error .socketPathNotSupportedTcp
    ∧ add "n" "tcp://h:8080" flagsIdent SshMode.golang statNone (.ok cfgEmpty)
      = .error .identityNotSupportedTcp
    ∧ add "n" "ssh://h" flagsBoth SshMode.golang statNone (.ok cfgEmpty)
      = .sshDelegate sshOptsBoth SshMode.golang := by
  refine ⟨?_, ?_, ?_, ?_⟩
  · exact (scheme_override_rejection "n" "unix:///run/p" flagsIdent SshMode.golang statNone
      (.ok cfgEmpty) uriUnix rfl (by decide)).1 rfl rfl
  · exact (scheme_override_rejection "n" "tcp://h:8080" flagsSock SshMode.golang statNone
      (.ok cfgEmpty) uriTcp8080 rfl (by decide)).2.1 rfl rfl
  · exact (scheme_override_rejection "n" "tcp://h:8080" flagsIdent SshMode.golang statNone
      (.ok cfgEmpty) uriTcp8080 rfl (by decide)).2.2.1 rfl rfl rfl
  · exact (scheme_override_rejection "n" "ssh://h" flagsBoth SshMode.golang statNone
      (.ok cfgEmpty) { scheme := "ssh", user := none, host := "h", port := "", path := "" }
      rfl (by decide)).2.2.2 rfl

/-- C6: unix-scheme stat policy — a missing path or a permission error
is non-fatal and the add succeeds, any other stat error is returned,
an existing non-socket file is an invalid destination, and an existing
socket lets the add succeed. -/
theorem unix_stat_policy (name dest : String) (flags : Flags) (mode : SshMode)
    (stat : String → StatResult) (cfg : EngineCfg) (uri : Url)
    (hp : urlParse (preprocessDest dest) = .ok uri) (hm : mode ≠ SshMode.invalid)
    (hs : uri.scheme = "unix") (hid : flags.identityChanged = false) :
    (stat (overridePath flags uri).path = .notExist →
      add name dest flags mode stat (.ok cfg)
        = .wrote (addUpsert cfg name (dstOf flags (overridePath flags uri))
            flags.defaultChanged flags.defaultFlag))
    ∧ (stat (overridePath flags uri).path = .permission →
      add name dest flags mode stat (.ok cfg)
        = .wrote (addUpsert cfg name (dstOf flags (overridePath flags uri))
            flags.defaultChanged flags.defaultFlag))
    ∧ (∀ m, stat (overridePath flags uri).path = .otherError m →
      add name dest flags mode stat (.ok cfg) = .error (.statError m))
    ∧ (stat (overridePath flags uri).path = .ok true →
      add name dest flags mode stat (.ok cfg)
        = .wrote (addUpsert cfg name (dstOf flags (overridePath flags uri))
            flags.defaultChanged flags.defaultFlag))
    ∧ (stat (overridePath flags uri).path = .ok false →
      add name dest flags mode stat (.ok cfg)
        = .error (.notASocket (overridePath flags uri).path)) := by
  refine ⟨fun h => ?_, fun h => ?_, fun m h => ?_, fun h => ?_, fun h => ?_⟩ <;>
    simp [add, addPre, hp, hm, hs, hid, h, finishAdd]

/-- Witness for C6 at `unix:///run/p`: not-found is non-fatal and the
registry is written, an unexpected stat error propagates, and an
existing non-socket path is rejected. -/
theorem unix_stat_policy_witness :
    add "n" "unix:///run/p" flags0 SshMode.golang statNone (.ok cfgEmpty)
      = .wrote (addUpsert cfgEmpty "n" (dstOf flags0 (overridePath flags0 uriUnix)) false false)
    ∧ add "n" "unix:///run/p" flags0 SshMode.golang statOther (.ok cfgEmpty)
      = .error (.statError "boom")
    ∧ add "n" "unix:///run/p" flags0 SshMode.golang statNotSock (.ok cfgEmpty)
      = .error (.notASocket "/run/p") := by
  refine ⟨?_, ?_, ?_⟩
  · exact (unix_stat_policy "n" "unix:///run/p" flags0 SshMode.golang statNone cfgEmpty
      uriUnix rfl (by decide) rfl rfl).1 rfl
  · exact (unix_stat_policy "n" "unix:///run/p" flags0 SshMode.golang statOther cfgEmpty
      uriUnix rfl (by decide) rfl rfl).2.2.1 "boom" rfl
  · exact (unix_stat_policy "n" "unix:///run/p" flags0 SshMode.golang statNotSock cfgEmpty
      uriUnix rfl (by decide) rfl rfl).2.2.2.2 rfl

/-- C7: translator error cases — a `key=value` input whose key is not
`host` fails with the invalid-option error, and a `host=` value with
further comma-separated segments fails with the unsupported-options
error naming everything after the first comma verbatim. -/
theorem translate_error_cases :
    (∀ k v : String, '=' ∉ k.data → k ≠ "host" →
      translateDest (k ++ "=" ++ v) = .error .invalidOption)
    ∧ (∀ v rest : String, ',' ∉ v.data →
      translateDest ("host=" ++ v ++ "," ++ rest)
        = .error (.unsupportedOptions rest)) := by
  constructor
  · intro k v hk hkh
    have hd : (k ++ "=" ++ v).data = k.data ++ '=' :: v.data := by
      rw [String.data_append, String.data_append]
      have h1 : "=".data = ['='] := rfl
      rw [h1]
      simp
    have hne : (k ++ "=" ++ v) ≠ "" := by
      intro he
      rw [he] at hd
      simp at hd
    rw [translateDest, if_neg hne]
    have hsplit : goSplitN2 '=' (k ++ "=" ++ v) = [k, v] := by
      rw [goSplitN2, hd, splitNAux2_sep_append '=' k.data v.data []
        (fun c hc he => hk (he ▸ hc))]
      simp
    rw [hsplit]
    simp [hkh]
  · intro v rest hv
    have hd : ("host=" ++ v ++ "," ++ rest).data
        = ['h', 'o', 's', 't'] ++ '=' :: (v.data ++ ',' :: rest.data) := by
      rw [String.data_append, String.data_append, String.data_append]
      have h5 : "host=".data = ['h', 'o', 's', 't', '='] := rfl
      have hc : ",".data = [','] := rfl
      rw [h5, hc]
      simp
    have hne : ("host=" ++ v ++ "," ++ rest) ≠ "" := by
      intro he
      rw [he] at hd
      simp at hd
    have hsplit : goSplitN2 '=' ("host=" ++ v ++ "," ++ rest)
        = ["host", String.mk (v.data ++ ',' :: rest.data)] := by
      rw [goSplitN2, hd, splitNAux2_sep_append '=' ['h', 'o', 's', 't']
        (v.data ++ ',' :: rest.data) [] (by decide)]
      rfl
    have hy : goSplit ',' (String.mk (v.data ++ ',' :: rest.data))
        = v :: (splitAllAux ',' [] rest.data).map String.mk := by
      rw [goSplit, data_mk, splitAllAux_sep_append ',' v.data rest.data []
        (fun c hc he => hv (he ▸ hc))]
      simp
    obtain ⟨y, ys, hys⟩ : ∃ y ys, splitAllAux ',' [] rest.data = y :: ys := by
      cases hsp : splitAllAux ',' [] rest.data with
      | nil => exact absurd hsp (splitAllAux_ne_nil ',' [] rest.data)
      | cons y ys => exact ⟨y, ys, rfl⟩
    have hjoin : goJoin ',' (String.mk y :: List.map String.mk ys) = rest := by
      rw [goJoin]
      have hmm : (String.mk y :: List.map String.mk ys).map String.data = y :: ys := by
        have hcomp : (String.data ∘ String.mk) = id := funext fun l => rfl
        simp [List.map_map, hcomp]
      rw [hmm, ← hys, joinSep_splitAllAux]
      simp
    rw [translateDest, if_neg hne]
    simp [hsplit, hy, hys, hjoin]

/-- Witness for C7: `user=foo` is an invalid option, and
`host=tcp://h:1,ca=x,cert=y` is rejected naming `ca=x,cert=y`. -/
theorem translate_error_cases_witness :
    translateDest "user=foo" = .error .invalidOption
    ∧ translateDest "host=tcp://h:1,ca=x,cert=y"
      = .error (.unsupportedOptions "ca=x,cert=y") := by
  constructor
  · exact translate_error_cases.1 "user" "foo" (by decide) (by decide)
  · exact translate_error_cases.2 "tcp://h:1" "ca=x,cert=y" (by decide)

/-- C8: translator success cases — the empty string passes through,
any input without `=` is returned verbatim, and `host=value` with no
comma in the value returns the value. -/
theorem translate_success_cases :
    translateDest "" = .ok ""
    ∧ (∀ s : String, '=' ∉ s.data → translateDest s = .ok s)
    ∧ (∀ v : String, ',' ∉ v.data → translateDest ("host=" ++ v) = .ok v) := by
  refine ⟨rfl, ?_, ?_⟩
  · intro s h
    by_cases hs : s = ""
    · rw [hs]
      rfl
    · rw [translateDest, if_neg hs]
      have hsplit : goSplitN2 '=' s = [s] := by
        rw [goSplitN2, splitNAux2_no_sep '=' s.data [] (fun c hc he => h (he ▸ hc))]
        simp
      rw [hsplit]
  · intro v h
    have hd : ("host=" ++ v).data = ['h', 'o', 's', 't'] ++ '=' :: v.data := by
      rw [String.data_append]
      have h5 : "host=".data = ['h', 'o', 's', 't', '='] := rfl
      rw [h5]
      rfl
    have hne : ("host=" ++ v) ≠ "" := by
      intro he
      rw [he] at hd
      simp at hd
    have hsplit : goSplitN2 '=' ("host=" ++ v) = ["host", v] := by
      rw [goSplitN2, hd, splitNAux2_sep_append '=' ['h', 'o', 's', 't'] v.data [] (by decide)]
      simp
    have hvals : goSplit ',' v = [v] := by
      rw [goSplit, splitAllAux_no_sep ',' v.data [] (fun c hc he => h (he ▸ hc))]
      simp
    rw [translateDest, if_neg hne]
    simp [hsplit, hvals]

/-- Witness for C8 at concrete inputs. -/
theorem translate_success_cases_witness :
    translateDest "" = .ok ""
    ∧ translateDest "tcp://x" = .ok "tcp://x"
    ∧ translateDest "host=tcp://h:1" = .ok "tcp://h:1" := by
  refine ⟨translate_success_cases.1, ?_, ?_⟩
  · exact translate_success_cases.2.1 "tcp://x" (by decide)
  · exact translate_success_cases.2.2 "tcp://h:1" (by decide)

/-- C9: the legacy `create` path performs no scheme-specific
validation and applies no overrides: any destination accepted by the
translator and the parser — regardless of the stat capability, so also
tcp URIs without a port, unix paths that exist and are not sockets, and
unrecognized schemes — is upserted with an empty identity and written,
and a non-nil map keeps its active service. -/
theorem create_no_validation (name p : String) (stat : String → StatResult)
    (cfg : EngineCfg) (d : String) (uri : Url)
    (ht : translateDest p = .ok d) (hp : urlParse (preprocessDest d) = .ok uri) :
    create name p stat (.ok cfg)
      = .wrote (serviceUpsert cfg name { uri := uri.toUriString, identity := "" })
    ∧ ∀ m, cfg.serviceDestinations = some m →
      (serviceUpsert cfg name { uri := uri.toUriString, identity := "" }).activeService
        = cfg.activeService := by
  constructor
  · simp [create, ht, hp]
  · intro m hm
    simp [serviceUpsert, hm]

/-- Witness for C9: `host=tcp://h` (a tcp destination with no port)
with a stat capability reporting a non-socket file still succeeds
under `create`, with no identity and the active service untouched. -/
theorem create_no_validation_witness :
    create "n" "host=tcp://h" statNotSock (.ok cfgEx)
      = .wrote (serviceUpsert cfgEx "n" { uri := "tcp://h", identity := "" })
    ∧ (serviceUpsert cfgEx "n" { uri := "tcp://h", identity := "" }).activeService = "old" := by
  have h := create_no_validation "n" "host=tcp://h" statNotSock cfgEx "tcp://h"
    { scheme := "tcp", user := none, host := "h", port := "", path := "" } rfl rfl
  exact ⟨h.1, h.2 [("old", { uri := "tcp://o:1", identity := "" })] rfl⟩

/-- C10: whenever `add` fails with an error raised before the
configuration load (parse failure, unsupported override, missing tcp
port, non-socket unix path, fatal stat error), the outcome is the same
for every possible loaded registry — the registry is neither read nor
mutated, and no configuration is handed to the persistence
collaborator. -/
theorem validation_error_preserves_registry (name dest : String) (flags : Flags)
    (mode : SshMode) (stat : String → StatResult) (e : AddError)
    (load1 load2 : Except String EngineCfg)
    (he : e.isPreLoad = true) (h : add name dest flags mode stat load1 = .error e) :
    add name dest flags mode stat load2 = .error e := by
  cases hpre : addPre name dest flags mode stat with
  | err e2 =>
    simp only [add, hpre] at h ⊢
    exact h
  | sshCreate o m =>
    simp [add, hpre] at h
  | proceed u =>
    simp only [add, hpre] at h ⊢
    have hco := finishAdd_error name flags u load1 e h
    rw [he] at hco
    simp at hco

/-- Witness for C10: the missing-port failure for `tcp://h` is
identical under two different loaded registries. -/
theorem validation_error_preserves_registry_witness :
    add "n" "tcp://h" flags0 SshMode.golang statNone (.ok cfgEmpty)
      = .error .tcpRequiresPort :=
  validation_error_preserves_registry "n" "tcp://h" flags0 SshMode.golang statNone
    .tcpRequiresPort (.ok cfgEx) (.ok cfgEmpty) rfl rfl

end Claims

end PodmanConnection
